import Mathlib

/-!
Verification of the map-widget core routines: polygon area (spherical excess),
unit formatting, coordinate-equality / duplicate detection, the drawn-feature
registry event handlers, and the GeoJSON export boundary.

Coordinates are modelled as exact rationals (the repository manipulates them as
plain numbers and never relies on floating-point rounding), and the area
computation — which passes through `Math.sin` and `Math.PI` — is modelled over
the real numbers.
-/

/-- Internal coordinate representation of the component: `{ lat, lng }` in
decimal degrees (source: `type LatLng = { lat: number; lng: number }`). -/
structure LatLng where
  lat : ℚ
  lng : ℚ
  deriving DecidableEq, Repr

instance : Inhabited LatLng := ⟨⟨0, 0⟩⟩

/-! ### Duplicate detector (`areCoordinatesEqual`, utils/mapUtils.ts) -/

/-- One pairwise comparison of `areCoordinatesEqual`: both the latitude and the
longitude absolute differences must be strictly below the tolerance
(source: the body of the `coords1.every` callback). -/
def coordMatch (tolerance : ℚ) (coord otherCoord : LatLng) : Bool :=
  decide (|coord.lat - otherCoord.lat| < tolerance) &&
    decide (|coord.lng - otherCoord.lng| < tolerance)

/-- Embedding of `areCoordinatesEqual(coords1, coords2, tolerance = 0.000001)`:
`false` when the lengths differ, otherwise the pointwise conjunction of
`coordMatch` over the two sequences in order. -/
def areCoordinatesEqual (coords1 coords2 : List LatLng)
    (tolerance : ℚ := 0.000001) : Bool :=
  if coords1.length ≠ coords2.length then false
  else (coords1.zip coords2).all fun p => coordMatch tolerance p.1 p.2

/-! ### Unit conversion and formatting (utils/mapUtils.ts) -/

/-- Embedding of `sqMetersToHectares`. -/
def sqMetersToHectares (sqMeters : ℚ) : ℚ := sqMeters / 10000

/-- Embedding of `sqMetersToSqKm`. -/
def sqMetersToSqKm (sqMeters : ℚ) : ℚ := sqMeters / 1000000

/-- Left-pads a digit string with zeros up to the requested width (used to
render the forced decimal places of `toFixed`). -/
def padLeftZeros (s : String) (width : ℕ) : String :=
  String.mk (List.replicate (width - s.length) '0') ++ s

/-- Renders the natural number `n` as a fixed-point decimal with `d` forced
decimal digits, reading `n` as the value scaled by `10 ^ d`. -/
def fixedDigits (n : ℕ) (d : ℕ) : String :=
  if d = 0 then Nat.repr n
  else Nat.repr (n / 10 ^ d) ++ "." ++ padLeftZeros (Nat.repr (n % 10 ^ d)) d

/-- Modelled from the ECMAScript specification of
`Number.prototype.toFixed(d)`, which the source calls on its area values: the
sign is extracted first, then the integer closest to `|x| * 10 ^ d` is chosen
(ties toward the larger integer, i.e. `⌊|x| * 10 ^ d + 1/2⌋`) and rendered with
exactly `d` decimal places. -/
def toFixed (x : ℚ) (d : ℕ) : String :=
  if x < 0 then "-" ++ fixedDigits (⌊(-x) * 10 ^ d + 1 / 2⌋).toNat d
  else fixedDigits (⌊x * 10 ^ d + 1 / 2⌋).toNat d

/-- Embedding of `formatArea(sqMeters)`: square meters with 2 decimals below
10 000, hectares with 4 decimals below 1 000 000, square kilometers with
2 decimals otherwise. -/
def formatArea (sqMeters : ℚ) : String :=
  if sqMeters < 10000 then toFixed sqMeters 2 ++ " m²"
  else if sqMeters < 1000000 then
    toFixed (sqMetersToHectares sqMeters) 4 ++ " hectares"
  else toFixed (sqMetersToSqKm sqMeters) 2 ++ " km²"

/-! ### Area calculation (`calculateArea`, utils/mapUtils.ts and
map-with-drawing.tsx — the two copies are textually identical) -/

/-- A coordinate pair after the degree-to-radian conversion step of
`calculateArea` (source: the intermediate `points` array). -/
structure RadPoint where
  lat : ℝ
  lng : ℝ

/-- Embedding of the `toRad` helper inside `calculateArea`:
`(deg * Math.PI) / 180`. -/
noncomputable def toRad (deg : ℚ) : ℝ := ((deg : ℝ) * Real.pi) / 180

/-- The per-point conversion `{ lat: toRad(ll.lat), lng: toRad(ll.lng) }`. -/
noncomputable def toRadPoint (ll : LatLng) : RadPoint := ⟨toRad ll.lat, toRad ll.lng⟩

/-- The summand added for a consecutive pair in `calculateArea`'s loop:
`(p2.lng - p1.lng) * (2 + Math.sin(p1.lat) + Math.sin(p2.lat))`. -/
noncomputable def edgeTerm (p1 p2 : RadPoint) : ℝ :=
  (p2.lng - p1.lng) * (2 + Real.sin p1.lat + Real.sin p2.lat)

/-- The accumulation loop of `calculateArea`: for `i < n` it adds
`edgeTerm points[i] points[(i+1) % n]`.  Element `i` of `points.rotate 1`
is exactly `points[(i+1) % n]` (see `cyclicSum_eq_sum_range`), so the loop
is the sum of `zipWith edgeTerm points (points.rotate 1)`. -/
noncomputable def cyclicSum (points : List RadPoint) : ℝ :=
  (List.zipWith edgeTerm points (points.rotate 1)).sum

/-- The constant `EARTH_RADIUS = 6378137` meters from `calculateArea`. -/
noncomputable def EARTH_RADIUS : ℝ := 6378137

/-- Embedding of `calculateArea(latlngs)`: `0` for fewer than 3 points,
otherwise `Math.abs((area * EARTH_RADIUS * EARTH_RADIUS) / 2)` where `area`
is the cyclic spherical-excess sum over the radian-converted points. -/
noncomputable def calculateArea (latlngs : List LatLng) : ℝ :=
  if latlngs.length < 3 then 0
  else |cyclicSum (latlngs.map toRadPoint) * EARTH_RADIUS * EARTH_RADIUS / 2|

/-- Stated from the specification's words for the area formula: `S` is the sum
over every index `i` — with cyclic wraparound so the last point pairs with the
first — of `(lng[i+1] - lng[i]) * (2 + sin(lat[i]) + sin(lat[i+1]))` after
degree-to-radian conversion of every point. -/
noncomputable def specRingSum (ring : List LatLng) : ℝ :=
  ∑ i in Finset.range ring.length,
    (toRad ((ring.getD ((i + 1) % ring.length) default).lng) -
        toRad ((ring.getD i default).lng)) *
      (2 + Real.sin (toRad ((ring.getD i default).lat)) +
        Real.sin (toRad ((ring.getD ((i + 1) % ring.length) default).lat)))

/-- Stated from the specification's words: `area(ring) = abs(S * R² / 2)` with
`R = 6378137`. -/
noncomputable def specArea (ring : List LatLng) : ℝ :=
  |specRingSum ring * 6378137 ^ 2 / 2|

/-- The zipWith-with-rotation form of the loop agrees with the literal
indexed sum `∑ i < n, edgeTerm points[i] points[(i+1) % n]`. -/
lemma cyclicSum_eq_sum_range (l : List RadPoint) (d : RadPoint) :
    cyclicSum l = ∑ i in Finset.range l.length,
      edgeTerm (l.getD i d) (l.getD ((i + 1) % l.length) d) := by
  have hz : List.zipWith edgeTerm l (l.rotate 1) =
      List.ofFn (fun i : Fin l.length =>
        edgeTerm (l.getD i d) (l.getD ((i + 1) % l.length) d)) := by
    apply List.ext_getElem
    · simp
    · intro i h1 h2
      have hi : i < l.length := by simpa using h1
      have hmod : (i + 1) % l.length < l.length :=
        Nat.mod_lt _ (Nat.zero_lt_of_lt hi)
      rw [List.getElem_zipWith, List.getElem_ofFn, List.getElem_rotate,
        List.getD_eq_getElem l d hi, List.getD_eq_getElem l d hmod]
  rw [cyclicSum, hz, List.sum_ofFn]
  exact Fin.sum_univ_eq_sum_range
    (fun i => edgeTerm (l.getD i d) (l.getD ((i + 1) % l.length) d)) l.length

/-- Rotating both argument lists of a `zipWith` by one step rotates the
result, provided the lists have equal length. -/
lemma zipWith_rotate_one {α β γ : Type*} (f : α → β → γ) (l : List α)
    (l' : List β) (h : l.length = l'.length) :
    List.zipWith f (l.rotate 1) (l'.rotate 1) = (List.zipWith f l l').rotate 1 := by
  rcases l with - | ⟨a, t⟩
  · have : l' = [] := List.length_eq_zero.mp (by simpa using h.symm)
    subst this
    simp
  · rcases l' with - | ⟨b, u⟩
    · simp at h
    · have ht : t.length = u.length := by simpa using h
      have h1 : 1 ≤ (a :: t).length := by simp
      have h1' : 1 ≤ (b :: u).length := by simp
      have h1z : 1 ≤ (List.zipWith f (a :: t) (b :: u)).length := by simp
      rw [List.rotate_eq_drop_append_take h1, List.rotate_eq_drop_append_take h1',
        List.zipWith_append f _ _ _ _ (by simpa using ht),
        ← List.drop_zipWith, ← List.take_zipWith,
        ← List.rotate_eq_drop_append_take h1z]

/-- The cyclic spherical-excess sum is unchanged by a one-step rotation of
the point list. -/
lemma cyclicSum_rotate_one (l : List RadPoint) :
    cyclicSum (l.rotate 1) = cyclicSum l := by
  unfold cyclicSum
  rw [zipWith_rotate_one edgeTerm l (l.rotate 1) (by simp)]
  exact (List.rotate_perm (List.zipWith edgeTerm l (l.rotate 1)) 1).sum_eq

/-- The cyclic spherical-excess sum is unchanged by any rotation of the
point list. -/
lemma cyclicSum_rotate (l : List RadPoint) (k : ℕ) :
    cyclicSum (l.rotate k) = cyclicSum l := by
  induction k with
  | zero => rw [List.rotate_zero]
  | succ k ih => rw [← List.rotate_rotate, cyclicSum_rotate_one, ih]

/-- In-bounds `getD` through a rotation becomes a modular index shift. -/
lemma getD_rotate {α : Type*} (l : List α) (k i : ℕ) (d : α)
    (h : i < l.length) :
    (l.rotate k).getD i d = l.getD ((i + k) % l.length) d := by
  have h1 : i < (l.rotate k).length := by simpa using h
  have h2 : (i + k) % l.length < l.length := Nat.mod_lt _ (Nat.zero_lt_of_lt h)
  rw [List.getD_eq_getElem _ d h1, List.getElem_rotate, List.getD_eq_getElem _ d h2]

/-- In-bounds `getD` through a reversal reflects the index. -/
lemma getD_reverse {α : Type*} (l : List α) (i : ℕ) (d : α)
    (h : i < l.length) :
    l.reverse.getD i d = l.getD (l.length - 1 - i) d := by
  have h1 : i < l.reverse.length := by simpa using h
  have h2 : l.length - 1 - i < l.length := by omega
  rw [List.getD_eq_getElem _ d h1, List.getElem_reverse, List.getD_eq_getElem _ d h2]

/-- Swapping the endpoints of an edge negates its spherical-excess term. -/
lemma edgeTerm_swap (p q : RadPoint) : edgeTerm q p = -edgeTerm p q := by
  unfold edgeTerm
  ring

/-- Reversing the point list negates the cyclic spherical-excess sum. -/
lemma cyclicSum_reverse (l : List RadPoint) : cyclicSum l.reverse = -cyclicSum l := by
  rcases eq_or_ne l.length 0 with h0 | h0
  · have : l = [] := List.length_eq_zero.mp h0
    subst this
    simp [cyclicSum]
  · have hn : 0 < l.length := Nat.pos_of_ne_zero h0
    set n := l.length with hnn
    set d : RadPoint := ⟨0, 0⟩ with hd
    have hidx : ∀ i, i < n → n - 1 - ((i + 1) % n) = (n - 1 - i + (n - 1)) % n := by
      intro i hi
      rcases eq_or_lt_of_le (Nat.succ_le_of_lt hi) with he | hl
      · have e1 : (i + 1) % n = 0 := by
          rw [show i + 1 = n from he, Nat.mod_self]
        have e2 : n - 1 - i = 0 := by omega
        rw [e1, e2, Nat.zero_add, Nat.mod_eq_of_lt (by omega)]
        omega
      · have e1 : (i + 1) % n = i + 1 := Nat.mod_eq_of_lt hl
        have e2 : n - 1 - i + (n - 1) = n + (n - 2 - i) := by omega
        rw [e1, e2, Nat.add_mod_left, Nat.mod_eq_of_lt (by omega)]
        omega
    have hidx2 : ∀ i, i < n → ((i + 1) % n + (n - 1)) % n = i := by
      intro i hi
      rcases eq_or_lt_of_le (Nat.succ_le_of_lt hi) with he | hl
      · have e1 : (i + 1) % n = 0 := by
          rw [show i + 1 = n from he, Nat.mod_self]
        rw [e1, Nat.zero_add, Nat.mod_eq_of_lt (by omega)]
        omega
      · have e1 : (i + 1) % n = i + 1 := Nat.mod_eq_of_lt hl
        have e2 : i + 1 + (n - 1) = n + i := by omega
        rw [e1, e2, Nat.add_mod_left, Nat.mod_eq_of_lt hi]
    calc cyclicSum l.reverse
        = ∑ i in Finset.range n, edgeTerm (l.reverse.getD i d)
            (l.reverse.getD ((i + 1) % n) d) := by
          have h := cyclicSum_eq_sum_range l.reverse d
          rwa [List.length_reverse] at h
      _ = ∑ i in Finset.range n, edgeTerm (l.getD (n - 1 - i) d)
            (l.getD ((n - 1 - i + (n - 1)) % n) d) := by
          apply Finset.sum_congr rfl
          intro i hi
          have hi' : i < n := Finset.mem_range.mp hi
          rw [getD_reverse l i d hi', getD_reverse l ((i + 1) % n) d (Nat.mod_lt _ hn),
            hidx i hi']
      _ = ∑ i in Finset.range n, edgeTerm (l.getD i d)
            (l.getD ((i + (n - 1)) % n) d) :=
          Finset.sum_range_reflect
            (fun j => edgeTerm (l.getD j d) (l.getD ((j + (n - 1)) % n) d)) n
      _ = ∑ i in Finset.range n, -edgeTerm (l.getD ((i + (n - 1)) % n) d)
            (l.getD i d) := by
          apply Finset.sum_congr rfl
          intro i hi
          exact edgeTerm_swap _ _
      _ = -∑ i in Finset.range n, edgeTerm ((l.rotate (n - 1)).getD i d)
            ((l.rotate (n - 1)).getD ((i + 1) % n) d) := by
          rw [← Finset.sum_neg_distrib]
          apply Finset.sum_congr rfl
          intro i hi
          have hi' : i < n := Finset.mem_range.mp hi
          rw [getD_rotate l (n - 1) i d hi',
            getD_rotate l (n - 1) ((i + 1) % n) d (Nat.mod_lt _ hn),
            hidx2 i hi']
      _ = -cyclicSum (l.rotate (n - 1)) := by
          have h := cyclicSum_eq_sum_range (l.rotate (n - 1)) d
          rw [List.length_rotate] at h
          rw [h]
      _ = -cyclicSum l := by rw [cyclicSum_rotate]

/-- The computed area is unchanged by any rotation of the ring. -/
lemma calculateArea_rotate (ring : List LatLng) (k : ℕ) :
    calculateArea (ring.rotate k) = calculateArea ring := by
  by_cases h : ring.length < 3
  · simp [calculateArea, List.length_rotate, h]
  · simp only [calculateArea, List.length_rotate, if_neg h]
    rw [List.map_rotate, cyclicSum_rotate]

/-- The computed area is unchanged by reversing the ring's winding order. -/
lemma calculateArea_reverse (ring : List LatLng) :
    calculateArea ring.reverse = calculateArea ring := by
  by_cases h : ring.length < 3
  · simp [calculateArea, List.length_reverse, h]
  · simp only [calculateArea, List.length_reverse, if_neg h]
    rw [List.map_reverse, cyclicSum_reverse]
    have he : -cyclicSum (ring.map toRadPoint) * EARTH_RADIUS * EARTH_RADIUS / 2 =
        -(cyclicSum (ring.map toRadPoint) * EARTH_RADIUS * EARTH_RADIUS / 2) := by
      ring
    rw [he, abs_neg]

/-- The computed area is non-negative for every input. -/
lemma calculateArea_nonneg (ring : List LatLng) : 0 ≤ calculateArea ring := by
  by_cases h : ring.length < 3 <;> simp [calculateArea, h, abs_nonneg]

/-! ### Feature registry model (map-with-drawing.tsx) -/

/-- The geometry kinds of a drawn feature (source: the `type` field of
`DrawnFeature`, one of `"polygon" | "polyline" | "marker" | "rectangle"`). -/
inductive FeatureType where
  | polygon
  | polyline
  | marker
  | rectangle
  deriving DecidableEq, Repr

/-- The owning logical layer of a drawn feature (source: the `layerType`
field, `"workArea" | "record"`). -/
inductive LayerType where
  | workArea
  | record
  deriving DecidableEq, Repr

/-- The active drawing mode (source: `type DrawMode = "workArea" | "record" |
"edit" | null`; `null` is modelled as `Option.none`). -/
inductive DrawModeKind where
  | workArea
  | record
  | edit
  deriving DecidableEq, Repr

/-- Embedding of the `DrawnFeature` record.  The Leaflet layer object held in
the `layer` field is modelled by its identity, a `layerId : ℕ`: the handlers
only ever compare it with `===` and pass it to `map.removeLayer`. -/
structure DrawnFeature where
  id : String
  type : FeatureType
  area : Option ℝ
  coordinates : List LatLng
  layerId : ℕ
  layerType : LayerType

/-- The component state the event handlers act on: the `drawnFeatures` React
state plus the set of Leaflet layers currently on the rendering surface
(the map), the latter modelled as the list of their identities. -/
structure MapState where
  drawnFeatures : List DrawnFeature
  mapLayers : List ℕ

/-- Embedding of `isDuplicateFeature(newCoordinates, existingFeatures)`:
`existingFeatures.some(f => areCoordinatesEqual(f.coordinates,
newCoordinates))`, with the default tolerance. -/
def isDuplicateFeature (newCoordinates : List LatLng)
    (existingFeatures : List DrawnFeature) : Bool :=
  existingFeatures.any fun feature =>
    areCoordinatesEqual feature.coordinates newCoordinates

/-- The geometry carried by the Leaflet layer delivered with a
`pm:create` / `pm:edit` event; the constructor mirrors the `instanceof`
dispatch (`L.Polygon` / `L.Polyline` / `L.Marker` / `L.Rectangle`) and the
payload is what the corresponding accessor returns (`getLatLngs()[0]`,
`getLatLngs()`, or `getLatLng()`). -/
inductive LayerGeom where
  | polygon (latlngs : List LatLng)
  | polyline (latlngs : List LatLng)
  | marker (latlng : LatLng)
  | rectangle (latlngs : List LatLng)

/-- Embedding of the `handleCreate` handler for a `pm:create` event carrying
the freshly drawn layer `layerId` with geometry `geom`.  The drawing plugin
has already placed the layer on the map, so `layerId` is expected to be in
`st.mapLayers`.  On a duplicate the layer is removed from the map
(`map.removeLayer(layer)`) and the handler returns without touching
`drawnFeatures`; otherwise the new feature record is appended.  (The
`onPolygonChange` callback and the selection state are UI concerns left
unmodelled.) -/
noncomputable def handleCreate (drawMode : Option DrawModeKind) (st : MapState)
    (layerId : ℕ) (id : String) (geom : LayerGeom) : MapState :=
  let targetLayerType :=
    if drawMode = some DrawModeKind.record then LayerType.record
    else LayerType.workArea
  match geom with
  | LayerGeom.polygon latlngs =>
      let area := calculateArea latlngs
      let coordinates := latlngs
      if isDuplicateFeature coordinates st.drawnFeatures then
        ⟨st.drawnFeatures, st.mapLayers.erase layerId⟩
      else
        ⟨st.drawnFeatures ++
          [⟨id, FeatureType.polygon, some area, coordinates, layerId, targetLayerType⟩],
          st.mapLayers⟩
  | LayerGeom.polyline latlngs =>
      let coordinates := latlngs
      if isDuplicateFeature coordinates st.drawnFeatures then
        ⟨st.drawnFeatures, st.mapLayers.erase layerId⟩
      else
        ⟨st.drawnFeatures ++
          [⟨id, FeatureType.polyline, none, coordinates, layerId, targetLayerType⟩],
          st.mapLayers⟩
  | LayerGeom.marker latlng =>
      let coordinates := [latlng]
      if isDuplicateFeature coordinates st.drawnFeatures then
        ⟨st.drawnFeatures, st.mapLayers.erase layerId⟩
      else
        ⟨st.drawnFeatures ++
          [⟨id, FeatureType.marker, none, coordinates, layerId, targetLayerType⟩],
          st.mapLayers⟩
  | LayerGeom.rectangle latlngs =>
      let area := calculateArea latlngs
      let coordinates := latlngs
      if isDuplicateFeature coordinates st.drawnFeatures then
        ⟨st.drawnFeatures, st.mapLayers.erase layerId⟩
      else
        ⟨st.drawnFeatures ++
          [⟨id, FeatureType.rectangle, some area, coordinates, layerId, targetLayerType⟩],
          st.mapLayers⟩

/-- Embedding of the `handleEdit` handler for a `pm:edit` event on the layer
`layerId` whose (post-edit) geometry is `geom`: each feature whose `layer`
is the event's layer gets its coordinates replaced and — for
polygons/rectangles — its area recomputed from scratch; every other field
and every other feature is unchanged, and no duplicate check runs. -/
noncomputable def handleEdit (st : MapState) (layerId : ℕ)
    (geom : LayerGeom) : MapState :=
  ⟨st.drawnFeatures.map fun feature =>
      if feature.layerId = layerId then
        match geom with
        | LayerGeom.polygon latlngs =>
            ⟨feature.id, feature.type, some (calculateArea latlngs), latlngs,
              feature.layerId, feature.layerType⟩
        | LayerGeom.rectangle latlngs =>
            ⟨feature.id, feature.type, some (calculateArea latlngs), latlngs,
              feature.layerId, feature.layerType⟩
        | LayerGeom.polyline latlngs =>
            ⟨feature.id, feature.type, feature.area, latlngs,
              feature.layerId, feature.layerType⟩
        | LayerGeom.marker latlng =>
            ⟨feature.id, feature.type, feature.area, [latlng],
              feature.layerId, feature.layerType⟩
      else feature,
    st.mapLayers⟩

/-! ### GeoJSON export (`copyFeatureGeoJSON`, map-with-drawing.tsx) -/

/-- The JSON values appearing in an exported geometry's `coordinates`
field: numbers and arrays. -/
inductive Json where
  | num (q : ℚ)
  | arr (elems : List Json)

/-- A single `[lng, lat]` position as emitted by the export code
(`[c.lng, c.lat]` — note the swap from the internal `{lat, lng}` order). -/
def coordJson (c : LatLng) : Json := Json.arr [Json.num c.lng, Json.num c.lat]

/-- The parts of the GeoJSON `Feature` object built by `copyFeatureGeoJSON`
that carry geometric content: `geometry.type`, `geometry.coordinates` and
`properties.area`. -/
structure GeoJsonFeature where
  geometryType : String
  coordinates : Json
  area : Option ℝ

/-- Embedding of `copyFeatureGeoJSON(feature)` (the clipboard write itself is
an external effect): geometry type `"Polygon"` for polygons and rectangles,
`"LineString"` for polylines, `"Point"` otherwise; coordinates are
`[lng, lat]` for a marker (the source reads `feature.coordinates[0]`,
modelled with `getD 0`), `[ring]` with a single swapped ring for
polygons/rectangles, and a flat list of swapped pairs for polylines. -/
def copyFeatureGeoJSON (feature : DrawnFeature) : GeoJsonFeature :=
  ⟨if feature.type = FeatureType.polygon ∨ feature.type = FeatureType.rectangle then
      "Polygon"
    else if feature.type = FeatureType.polyline then "LineString"
    else "Point",
    if feature.type = FeatureType.marker then
      Json.arr [Json.num (feature.coordinates.getD 0 default).lng,
        Json.num (feature.coordinates.getD 0 default).lat]
    else if feature.type = FeatureType.polygon ∨ feature.type = FeatureType.rectangle then
      Json.arr [Json.arr (feature.coordinates.map coordJson)]
    else Json.arr (feature.coordinates.map coordJson),
    feature.area⟩

/-! ### Claim theorems -/

/-- Helper for C2: the pointwise `all` over the zip of two equal-length
sequences holds iff `coordMatch` holds at every index. -/
lemma zip_all_coordMatch_iff (t : ℚ) :
    ∀ (a b : List LatLng), a.length = b.length →
      (((a.zip b).all fun p => coordMatch t p.1 p.2) = true ↔
        ∀ i, i < a.length →
          |(a.getD i default).lat - (b.getD i default).lat| < t ∧
          |(a.getD i default).lng - (b.getD i default).lng| < t)
  | [], [], _ => by simp
  | [], _ :: _, h => by simp at h
  | _ :: _, [], h => by simp at h
  | x :: xs, y :: ys, h => by
      have h' : xs.length = ys.length := by simpa using h
      have ih := zip_all_coordMatch_iff t xs ys h'
      constructor
      · intro hall i hi
        rw [List.zip_cons_cons, List.all_cons, Bool.and_eq_true] at hall
        cases i with
        | zero =>
            simpa [coordMatch, List.getD_cons_zero] using hall.1
        | succ i =>
            have hi' : i < xs.length := by simpa using hi
            simpa [List.getD_cons_succ] using (ih.mp hall.2) i hi'
      · intro hpt
        rw [List.zip_cons_cons, List.all_cons, Bool.and_eq_true]
        refine ⟨?_, ih.mpr fun i hi => ?_⟩
        · simpa [coordMatch, List.getD_cons_zero] using hpt 0 (by simp)
        · simpa [List.getD_cons_succ] using hpt (i + 1) (by simpa using Nat.succ_lt_succ hi)

/-- C1: for every coordinate ring with at least 3 points, `calculateArea`
equals `abs(S * R² / 2)` with Earth radius `R = 6378137` meters, where `S`
sums `(lng[i+1] - lng[i]) * (2 + sin(lat[i]) + sin(lat[i+1]))` over every
index with cyclic wraparound, after degree-to-radian conversion of every
point — the spec-side formula embedded as `specArea`. -/
theorem calculateArea_eq_specArea (ring : List LatLng) (h : 3 ≤ ring.length) :
    calculateArea ring = specArea ring := by
  have h3 : ¬ring.length < 3 := not_lt.mpr h
  have hn : 0 < ring.length := by omega
  have hmap : ∀ j, j < ring.length →
      (ring.map toRadPoint).getD j ⟨0, 0⟩ = toRadPoint (ring.getD j default) := by
    intro j hj
    rw [List.getD_eq_getElem _ _ (by simpa using hj), List.getElem_map,
      List.getD_eq_getElem _ _ hj]
  have hsum : cyclicSum (ring.map toRadPoint) = specRingSum ring := by
    rw [cyclicSum_eq_sum_range (ring.map toRadPoint) ⟨0, 0⟩, List.length_map]
    unfold specRingSum
    apply Finset.sum_congr rfl
    intro i hi
    have hi' : i < ring.length := Finset.mem_range.mp hi
    rw [hmap i hi', hmap ((i + 1) % ring.length) (Nat.mod_lt _ hn)]
    simp [edgeTerm, toRadPoint]
  simp only [calculateArea, if_neg h3, specArea, hsum]
  congr 1
  simp only [EARTH_RADIUS]
  ring

/-- Witness for C1 at a concrete 3-point ring. -/
theorem calculateArea_eq_specArea_witness :
    3 ≤ ([⟨0, 0⟩, ⟨0, 1⟩, ⟨1, 1⟩] : List LatLng).length ∧
      calculateArea [⟨0, 0⟩, ⟨0, 1⟩, ⟨1, 1⟩] = specArea [⟨0, 0⟩, ⟨0, 1⟩, ⟨1, 1⟩] :=
  ⟨by decide, calculateArea_eq_specArea [⟨0, 0⟩, ⟨0, 1⟩, ⟨1, 1⟩] (by decide)⟩

/-- C2: `areCoordinatesEqual` returns `false` when the lengths differ;
otherwise it returns `true` iff at every index both the latitude and the
longitude absolute differences are strictly below the tolerance (one failing
index makes it `false`); the default tolerance is `1e-6`. -/
theorem areCoordinatesEqual_spec (a b : List LatLng) (t : ℚ) :
    (a.length ≠ b.length → areCoordinatesEqual a b t = false) ∧
    (a.length = b.length →
      (areCoordinatesEqual a b t = true ↔
        ∀ i, i < a.length →
          |(a.getD i default).lat - (b.getD i default).lat| < t ∧
          |(a.getD i default).lng - (b.getD i default).lng| < t)) ∧
    areCoordinatesEqual a b = areCoordinatesEqual a b (1 / 1000000) := by
  refine ⟨fun hne => ?_, fun hlen => ?_, ?_⟩
  · simp [areCoordinatesEqual, hne]
  · have hiff := zip_all_coordMatch_iff t a b hlen
    simpa [areCoordinatesEqual, hlen] using hiff
  · have e : (0.000001 : ℚ) = 1 / 1000000 := by norm_num
    simp only [areCoordinatesEqual, e]

/-- Witness for C2 at sequences of different lengths. -/
theorem areCoordinatesEqual_spec_witness :
    ([⟨0, 0⟩] : List LatLng).length ≠ ([] : List LatLng).length ∧
      areCoordinatesEqual [⟨0, 0⟩] [] 1 = false :=
  ⟨by decide, (areCoordinatesEqual_spec [⟨0, 0⟩] [] 1).1 (by decide)⟩

/-- C3: starting from an empty registry, creating a polygon feature with ring
`R` and then attempting to create a second polygon whose ring compares equal
to the stored one under the duplicate detector (default tolerance `1e-6`)
is rejected: the registry still holds exactly the one feature (its state is
unchanged by the rejection) and the rejected layer is removed from the
rendering surface. -/
theorem create_rejects_duplicate (R R2 : List LatLng)
    (dm dm2 : Option DrawModeKind) (l1 l2 : ℕ) (id1 id2 : String) (ml : List ℕ)
    (hdup : areCoordinatesEqual R R2 = true) :
    (handleCreate dm ⟨[], ml⟩ l1 id1 (LayerGeom.polygon R)).drawnFeatures.length = 1 ∧
    handleCreate dm2 (handleCreate dm ⟨[], ml⟩ l1 id1 (LayerGeom.polygon R)) l2 id2
        (LayerGeom.polygon R2) =
      ⟨(handleCreate dm ⟨[], ml⟩ l1 id1 (LayerGeom.polygon R)).drawnFeatures,
        (handleCreate dm ⟨[], ml⟩ l1 id1 (LayerGeom.polygon R)).mapLayers.erase l2⟩ := by
  have hst1 : handleCreate dm ⟨[], ml⟩ l1 id1 (LayerGeom.polygon R) =
      ⟨[⟨id1, FeatureType.polygon, some (calculateArea R), R, l1,
          if dm = some DrawModeKind.record then LayerType.record
          else LayerType.workArea⟩], ml⟩ := by
    simp [handleCreate, isDuplicateFeature]
  rw [hst1]
  exact ⟨rfl, by simp [handleCreate, isDuplicateFeature, hdup]⟩

/-- Witness for C3 at a concrete ring registered twice. -/
theorem create_rejects_duplicate_witness :
    areCoordinatesEqual [⟨0, 0⟩, ⟨0, 1⟩, ⟨1, 1⟩] [⟨0, 0⟩, ⟨0, 1⟩, ⟨1, 1⟩] = true ∧
      ((handleCreate none ⟨[], []⟩ 1 "f1"
          (LayerGeom.polygon [⟨0, 0⟩, ⟨0, 1⟩, ⟨1, 1⟩])).drawnFeatures.length = 1 ∧
        handleCreate none
            (handleCreate none ⟨[], []⟩ 1 "f1" (LayerGeom.polygon [⟨0, 0⟩, ⟨0, 1⟩, ⟨1, 1⟩]))
            2 "f2" (LayerGeom.polygon [⟨0, 0⟩, ⟨0, 1⟩, ⟨1, 1⟩]) =
          ⟨(handleCreate none ⟨[], []⟩ 1 "f1"
              (LayerGeom.polygon [⟨0, 0⟩, ⟨0, 1⟩, ⟨1, 1⟩])).drawnFeatures,
            (handleCreate none ⟨[], []⟩ 1 "f1"
              (LayerGeom.polygon [⟨0, 0⟩, ⟨0, 1⟩, ⟨1, 1⟩])).mapLayers.erase 2⟩) :=
  ⟨by norm_num [areCoordinatesEqual, coordMatch],
    create_rejects_duplicate _ _ none none 1 2 "f1" "f2" []
      (by norm_num [areCoordinatesEqual, coordMatch])⟩

/-- C4: `formatArea` renders square meters with 2 decimals and suffix `m²`
below 10 000, hectares (value / 10 000) with 4 decimals below 1 000 000, and
square kilometers (value / 1 000 000) with 2 decimals otherwise; the band
boundaries are exclusive upward, so exactly 10 000 is hectares and exactly
1 000 000 is km²; in particular `formatArea 5000 = "5000.00 m²"`. -/
theorem formatArea_spec (q : ℚ) :
    (q < 10000 → formatArea q = toFixed q 2 ++ " m²") ∧
    (10000 ≤ q → q < 1000000 →
      formatArea q = toFixed (q / 10000) 4 ++ " hectares") ∧
    (1000000 ≤ q → formatArea q = toFixed (q / 1000000) 2 ++ " km²") ∧
    formatArea 5000 = "5000.00 m²" ∧
    formatArea 10000 = "1.0000 hectares" ∧
    formatArea 1000000 = "1.00 km²" := by
  refine ⟨fun h1 => ?_, fun h2 h3 => ?_, fun h4 => ?_, ?_, ?_, ?_⟩
  · simp [formatArea, h1]
  · simp [formatArea, h3, not_lt.mpr h2, sqMetersToHectares]
  · simp [formatArea, not_lt.mpr h4, sqMetersToSqKm,
      not_lt.mpr (le_trans (by norm_num : (10000 : ℚ) ≤ 1000000) h4)]
  · norm_num [formatArea, toFixed, fixedDigits, padLeftZeros]
    rfl
  · norm_num [formatArea, toFixed, fixedDigits, padLeftZeros, sqMetersToHectares]
    rfl
  · norm_num [formatArea, toFixed, fixedDigits, padLeftZeros, sqMetersToSqKm]
    rfl

/-- Witness for C4 at `5000`. -/
theorem formatArea_spec_witness :
    (5000 : ℚ) < 10000 ∧ formatArea 5000 = toFixed 5000 2 ++ " m²" :=
  ⟨by decide, (formatArea_spec 5000).1 (by decide)⟩

/-- C5: for every ring with at least 3 points the computed area is invariant
under rotating the starting point (any cyclic shift) and under reversing the
winding order, and the returned area is non-negative for every input ring. -/
theorem calculateArea_invariances (ring : List LatLng) :
    (3 ≤ ring.length →
      (∀ k, calculateArea (ring.rotate k) = calculateArea ring) ∧
        calculateArea ring.reverse = calculateArea ring) ∧
    0 ≤ calculateArea ring :=
  ⟨fun _ => ⟨fun k => calculateArea_rotate ring k, calculateArea_reverse ring⟩,
    calculateArea_nonneg ring⟩

/-- Witness for C5 at a concrete 3-point ring and shift 1. -/
theorem calculateArea_invariances_witness :
    calculateArea (([⟨0, 0⟩, ⟨0, 1⟩, ⟨1, 1⟩] : List LatLng).rotate 1) =
        calculateArea [⟨0, 0⟩, ⟨0, 1⟩, ⟨1, 1⟩] ∧
      calculateArea ([⟨0, 0⟩, ⟨0, 1⟩, ⟨1, 1⟩] : List LatLng).reverse =
        calculateArea [⟨0, 0⟩, ⟨0, 1⟩, ⟨1, 1⟩] ∧
      0 ≤ calculateArea [⟨0, 0⟩, ⟨0, 1⟩, ⟨1, 1⟩] :=
  ⟨((calculateArea_invariances [⟨0, 0⟩, ⟨0, 1⟩, ⟨1, 1⟩]).1 (by decide)).1 1,
    ((calculateArea_invariances [⟨0, 0⟩, ⟨0, 1⟩, ⟨1, 1⟩]).1 (by decide)).2,
    (calculateArea_invariances [⟨0, 0⟩, ⟨0, 1⟩, ⟨1, 1⟩]).2⟩

/-- C6: every coordinate sequence with fewer than 3 points (including the
empty sequence and single points) has area exactly 0, as a defined result. -/
theorem calculateArea_degenerate (ring : List LatLng) (h : ring.length < 3) :
    calculateArea ring = 0 := by
  simp [calculateArea, h]

/-- Witness for C6 at a 2-point sequence. -/
theorem calculateArea_degenerate_witness :
    ([⟨0, 0⟩, ⟨1, 1⟩] : List LatLng).length < 3 ∧
      calculateArea [⟨0, 0⟩, ⟨1, 1⟩] = 0 :=
  ⟨by decide, calculateArea_degenerate [⟨0, 0⟩, ⟨1, 1⟩] (by decide)⟩

/-- C7 counterexample: the claim "for every ring, the ring and its
reverse-order (or rotated) equivalent are NOT considered equal" fails for
the one-point ring `[(0,0)]`, which is its own reversal and its own rotation
and which the detector reports equal to itself at the default tolerance. -/
theorem order_sensitivity_counterexample :
    ([⟨0, 0⟩] : List LatLng).reverse = [⟨0, 0⟩] ∧
    ([⟨0, 0⟩] : List LatLng).rotate 1 = [⟨0, 0⟩] ∧
    areCoordinatesEqual [⟨0, 0⟩] (([⟨0, 0⟩] : List LatLng).reverse) = true ∧
    areCoordinatesEqual [⟨0, 0⟩] (([⟨0, 0⟩] : List LatLng).rotate 1) = true := by
  refine ⟨rfl, by simp, ?_, ?_⟩ <;>
    norm_num [areCoordinatesEqual, coordMatch]

/-- C7 amended: the duplicate detector compares strictly positionally with no
reversal or rotation normalization — an identical sequence compares equal
while the two-point ring `[(0,0),(1,1)]` does not compare equal to its
reversal `[(1,1),(0,0)]` (which is also its one-step rotation); rings whose
reversal or rotation happens to coincide pointwise with the original (e.g. a
one-point ring) still compare equal. -/
theorem order_sensitivity_amended :
    areCoordinatesEqual [⟨0, 0⟩, ⟨1, 1⟩] [⟨0, 0⟩, ⟨1, 1⟩] = true ∧
    areCoordinatesEqual [⟨0, 0⟩, ⟨1, 1⟩] [⟨1, 1⟩, ⟨0, 0⟩] = false ∧
    ([⟨0, 0⟩, ⟨1, 1⟩] : List LatLng).reverse = [⟨1, 1⟩, ⟨0, 0⟩] ∧
    ([⟨0, 0⟩, ⟨1, 1⟩] : List LatLng).rotate 1 = [⟨1, 1⟩, ⟨0, 0⟩] := by
  refine ⟨?_, ?_, rfl, rfl⟩ <;>
    norm_num [areCoordinatesEqual, coordMatch]

/-- C8: an edit event that replaces a registered polygon (or rectangle)
feature's geometry with `R2` stores coordinates `R2` and an area recomputed
from scratch as `calculateArea R2`, keeps the entry's id, kind and owning
layer, leaves entries on other layers untouched, and requires no
duplicate-freedom hypothesis — the update never consults the duplicate
detector, so it succeeds even when `R2` duplicates another entry. -/
theorem edit_recomputes_area (st : MapState) (lid : ℕ) (R2 : List LatLng)
    (geom : LayerGeom) (f : DrawnFeature) (hf : f ∈ st.drawnFeatures)
    (hl : f.layerId = lid)
    (hg : geom = LayerGeom.polygon R2 ∨ geom = LayerGeom.rectangle R2) :
    (handleEdit st lid geom).drawnFeatures.length = st.drawnFeatures.length ∧
    (⟨f.id, f.type, some (calculateArea R2), R2, f.layerId, f.layerType⟩ :
        DrawnFeature) ∈ (handleEdit st lid geom).drawnFeatures ∧
    ∀ g ∈ st.drawnFeatures, g.layerId ≠ lid →
      g ∈ (handleEdit st lid geom).drawnFeatures := by
  refine ⟨by simp [handleEdit], ?_, fun g hgmem hgne => ?_⟩
  · simp only [handleEdit]
    apply List.mem_map.mpr
    refine ⟨f, hf, ?_⟩
    rcases hg with hg | hg <;> subst hg <;> simp [hl]
  · simp only [handleEdit]
    exact List.mem_map.mpr ⟨g, hgmem, by simp [hgne]⟩

/-- Witness for C8: editing a one-feature registry. -/
theorem edit_recomputes_area_witness :
    (handleEdit ⟨[⟨"f1", FeatureType.polygon, none, [⟨0, 0⟩], 5, LayerType.workArea⟩], []⟩
        5 (LayerGeom.polygon [⟨0, 0⟩, ⟨0, 1⟩, ⟨1, 1⟩])).drawnFeatures.length =
      ([⟨"f1", FeatureType.polygon, none, [⟨0, 0⟩], 5, LayerType.workArea⟩] :
        List DrawnFeature).length ∧
    (⟨"f1", FeatureType.polygon, some (calculateArea [⟨0, 0⟩, ⟨0, 1⟩, ⟨1, 1⟩]),
        [⟨0, 0⟩, ⟨0, 1⟩, ⟨1, 1⟩], 5, LayerType.workArea⟩ : DrawnFeature) ∈
      (handleEdit ⟨[⟨"f1", FeatureType.polygon, none, [⟨0, 0⟩], 5, LayerType.workArea⟩], []⟩
        5 (LayerGeom.polygon [⟨0, 0⟩, ⟨0, 1⟩, ⟨1, 1⟩])).drawnFeatures := by
  have h := edit_recomputes_area
      ⟨[⟨"f1", FeatureType.polygon, none, [⟨0, 0⟩], 5, LayerType.workArea⟩], []⟩ 5
      [⟨0, 0⟩, ⟨0, 1⟩, ⟨1, 1⟩] (LayerGeom.polygon [⟨0, 0⟩, ⟨0, 1⟩, ⟨1, 1⟩])
      ⟨"f1", FeatureType.polygon, none, [⟨0, 0⟩], 5, LayerType.workArea⟩
      (List.mem_singleton_self _) rfl (Or.inl rfl)
  exact ⟨h.1, h.2.1⟩

/-- C9: the GeoJSON export swaps the coordinate order from the internal
`{lat, lng}` to `[longitude, latitude]`: a marker becomes a `Point` with
coordinates `[lng, lat]`, a polyline a `LineString` of `[lng, lat]` pairs,
and a polygon or rectangle a `Polygon` whose coordinates are `[ring]` — one
outer swapped ring and no holes. -/
theorem export_swaps_coordinate_order (f : DrawnFeature) :
    (f.type = FeatureType.marker →
      copyFeatureGeoJSON f = ⟨"Point",
        Json.arr [Json.num (f.coordinates.getD 0 default).lng,
          Json.num (f.coordinates.getD 0 default).lat], f.area⟩) ∧
    (f.type = FeatureType.polyline →
      copyFeatureGeoJSON f = ⟨"LineString",
        Json.arr (f.coordinates.map fun c =>
          Json.arr [Json.num c.lng, Json.num c.lat]), f.area⟩) ∧
    ((f.type = FeatureType.polygon ∨ f.type = FeatureType.rectangle) →
      copyFeatureGeoJSON f = ⟨"Polygon",
        Json.arr [Json.arr (f.coordinates.map fun c =>
          Json.arr [Json.num c.lng, Json.num c.lat])], f.area⟩) := by
  refine ⟨fun h => ?_, fun h => ?_, fun h => ?_⟩
  · simp [copyFeatureGeoJSON, h, coordJson]
  · simp [copyFeatureGeoJSON, h, coordJson]
  · rcases h with h | h <;> simp [copyFeatureGeoJSON, h, coordJson]

/-- Witness for C9: exporting a concrete marker swaps `(lat, lng) = (1, 2)`
into coordinates `[2, 1]`. -/
theorem export_swaps_coordinate_order_witness :
    copyFeatureGeoJSON ⟨"m1", FeatureType.marker, none, [⟨1, 2⟩], 0, LayerType.workArea⟩ =
      ⟨"Point", Json.arr [Json.num 2, Json.num 1], none⟩ := by
  have h := (export_swaps_coordinate_order
      ⟨"m1", FeatureType.marker, none, [⟨1, 2⟩], 0, LayerType.workArea⟩).1 rfl
  simpa using h

/-- C10: duplicate detection at creation time is layer-agnostic — a feature
registered on the `workArea` layer blocks the creation of a matching polygon
drawn in `record` mode: the detector fires and the creation is rejected,
with no per-layer scoping of the check. -/
theorem duplicate_check_is_layer_agnostic (st : MapState) (f : DrawnFeature)
    (R2 : List LatLng) (lid : ℕ) (id2 : String)
    (hf : f ∈ st.drawnFeatures) (_hlt : f.layerType = LayerType.workArea)
    (hdup : areCoordinatesEqual f.coordinates R2 = true) :
    isDuplicateFeature R2 st.drawnFeatures = true ∧
    handleCreate (some DrawModeKind.record) st lid id2 (LayerGeom.polygon R2) =
      ⟨st.drawnFeatures, st.mapLayers.erase lid⟩ := by
  have hd : isDuplicateFeature R2 st.drawnFeatures = true := by
    unfold isDuplicateFeature
    exact List.any_eq_true.mpr ⟨f, hf, hdup⟩
  exact ⟨hd, by simp [handleCreate, hd]⟩

/-- Witness for C10: a `workArea` polygon blocks an identical `record`
polygon. -/
theorem duplicate_check_is_layer_agnostic_witness :
    isDuplicateFeature [⟨0, 0⟩, ⟨0, 1⟩, ⟨1, 1⟩]
        [⟨"f1", FeatureType.polygon, some 0, [⟨0, 0⟩, ⟨0, 1⟩, ⟨1, 1⟩], 1,
          LayerType.workArea⟩] = true ∧
      handleCreate (some DrawModeKind.record)
          ⟨[⟨"f1", FeatureType.polygon, some 0, [⟨0, 0⟩, ⟨0, 1⟩, ⟨1, 1⟩], 1,
            LayerType.workArea⟩], [1]⟩ 2 "f2"
          (LayerGeom.polygon [⟨0, 0⟩, ⟨0, 1⟩, ⟨1, 1⟩]) =
        ⟨[⟨"f1", FeatureType.polygon, some 0, [⟨0, 0⟩, ⟨0, 1⟩, ⟨1, 1⟩], 1,
          LayerType.workArea⟩], ([1] : List ℕ).erase 2⟩ :=
  duplicate_check_is_layer_agnostic
    ⟨[⟨"f1", FeatureType.polygon, some 0, [⟨0, 0⟩, ⟨0, 1⟩, ⟨1, 1⟩], 1,
      LayerType.workArea⟩], [1]⟩
    ⟨"f1", FeatureType.polygon, some 0, [⟨0, 0⟩, ⟨0, 1⟩, ⟨1, 1⟩], 1,
      LayerType.workArea⟩
    [⟨0, 0⟩, ⟨0, 1⟩, ⟨1, 1⟩] 2 "f2" (List.mem_singleton_self _) rfl
    (by norm_num [areCoordinatesEqual, coordMatch])
